import Mathlib

/-!
Verification of the scanning core of `minscanner.py` (recontools).

Shallow embedding: network behaviour that the OS reports to the program
(the return code of `connect_ex`, what `recv` delivers or raises) is an
explicit input of each embedded function; the functions themselves are
direct translations of `banner_grab`, `scan` and `main`.  Python
exceptions are modelled with `Except`: a function's translation returns
`Except.error e` exactly when the corresponding Python code lets an
exception escape.  The socket system calls a function performs are
recorded as an explicit operation trace (`SockOp`), translated from the
order of the calls in the source.
-/

/-- What the network/OS does for the banner connection of `banner_grab`:
either `recv` delivers bytes that decode (already truncated to the 1024
requested), `recv` returns an empty read, the read step times out, the
connect itself fails, or the received bytes fail to decode. -/
inductive NetBanner
  | bytes (s : String)
  | emptyRecv
  | timeoutErr
  | connectErr
  | decodeErr
deriving DecidableEq

/-- Python exception kinds that the modelled code can raise. -/
inductive PyExn
  | valueError
  | timeoutExn
  | osError
  | decodeError
deriving DecidableEq

/-- Python `str.strip()` with no argument: drop leading and trailing
whitespace, modelled on the character list of the string. -/
def pyStrip (s : String) : String :=
  String.mk ((((s.data.dropWhile Char.isWhitespace).reverse.dropWhile
    Char.isWhitespace).reverse))

/-- The `try` body of `banner_grab` (minscanner.py lines 10-15): connect,
`recv(1024).decode().strip()`, return the stripped banner; each failing
step raises the corresponding exception. -/
def bannerGrabTry (net : NetBanner) : Except PyExn String :=
  match net with
  | NetBanner.bytes s => Except.ok (pyStrip s)
  | NetBanner.emptyRecv => Except.ok ""
  | NetBanner.timeoutErr => Except.error PyExn.timeoutExn
  | NetBanner.connectErr => Except.error PyExn.osError
  | NetBanner.decodeErr => Except.error PyExn.decodeError

/-- Translation of `banner_grab` (minscanner.py lines 9-19): the bare
`except:` turns every exception of the try body into `return ""`. -/
def banner_grab (net : NetBanner) : Except PyExn String :=
  match bannerGrabTry net with
  | Except.ok b => Except.ok b
  | Except.error _ => Except.ok ""

/-- The string value a call of `banner_grab` produces. -/
def bannerString (net : NetBanner) : String :=
  match banner_grab net with
  | Except.ok b => b
  | Except.error _ => ""

/-- What the network does for one `scan` call: the value `connect_ex`
returns (`0` on success, a nonzero errno on refusal/timeout/unreachable)
and, when the port is open, the behaviour of the banner connection. -/
structure ProbeNet where
  connectRes : Int
  bannerNet : NetBanner
deriving DecidableEq

/-- The line `scan` prints for an open port (minscanner.py line 29):
the f-string `"[+] Port {port} OPEN  {'| ' + banner if banner else ''}"`. -/
def scanLine (port : Int) (b : String) : String :=
  if b = "" then "[+] Port " ++ toString port ++ " OPEN  "
  else "[+] Port " ++ toString port ++ " OPEN  " ++ "| " ++ b

/-- The `try` body of `scan` (minscanner.py lines 22-29): `settimeout`
raises `ValueError` on a negative timeout; otherwise `connect_ex` is
called and, if it returns `0`, `banner_grab` runs and the OPEN line is
printed.  An exception escaping `banner_grab` would escape the body. -/
def scanTry (port T : Int) (net : ProbeNet) : Except PyExn (Option String) :=
  if T < 0 then Except.error PyExn.valueError
  else if net.connectRes = 0 then
    match banner_grab net.bannerNet with
    | Except.ok b => Except.ok (some (scanLine port b))
    | Except.error e => Except.error e
  else Except.ok none

/-- Translation of `scan` (minscanner.py lines 21-33): the bare
`except: pass` turns every exception of the body into no output. -/
def scan (port T : Int) (net : ProbeNet) : Except PyExn (Option String) :=
  match scanTry port T net with
  | Except.ok r => Except.ok r
  | Except.error _ => Except.ok none

/-- The line (if any) a `scan` call writes to standard output. -/
def scanOutput (port T : Int) (net : ProbeNet) : Option String :=
  match scan port T net with
  | Except.ok r => r
  | Except.error _ => none

/-- Socket-level operations performed by the embedded code, in call
order: socket creation, `settimeout`, `connect_ex`, `connect`, `recv`,
`close`, and a `print` of an output line. -/
inductive SockOp
  | create
  | settimeout (t : Int)
  | connectEx (port : Int)
  | connect (port : Int)
  | recv (n : Nat)
  | close
  | emit (line : String)
deriving DecidableEq

/-- Operation trace of `banner_grab` (minscanner.py lines 9-19): a fresh
socket, `settimeout(1)` (the constant `1` in the source), `connect`,
then `recv(1024)` unless the connect itself failed, and `close` in the
`finally` block. -/
def bannerGrabOps (port : Int) (net : NetBanner) : List SockOp :=
  [SockOp.create, SockOp.settimeout 1, SockOp.connect port] ++
    (match net with
     | NetBanner.connectErr => []
     | _ => [SockOp.recv 1024]) ++
    [SockOp.close]

/-- Operation trace of `scan` (minscanner.py lines 21-33): a fresh
socket, `settimeout(timeout)` (raising on a negative value), then
`connect_ex`; on return code `0` the whole of `banner_grab` runs and the
OPEN line is printed; `close` runs in the `finally` block. -/
def scanOps (port T : Int) (net : ProbeNet) : List SockOp :=
  [SockOp.create, SockOp.settimeout T] ++
    (if T < 0 then []
     else
       SockOp.connectEx port ::
         (if net.connectRes = 0 then
            bannerGrabOps port net.bannerNet ++
              [SockOp.emit (scanLine port (bannerString net.bannerNet))]
          else [])) ++
    [SockOp.close]

/-- Number of sockets created in an operation trace. -/
def creates (ops : List SockOp) : Nat :=
  ops.countP (fun o => match o with | SockOp.create => true | _ => false)

/-- Number of `close` calls in an operation trace. -/
def closes (ops : List SockOp) : Nat :=
  ops.countP (fun o => match o with | SockOp.close => true | _ => false)

/-- Number of TCP connection attempts (`connect` or `connect_ex`) in an
operation trace. -/
def connectAttempts (ops : List SockOp) : Nat :=
  ops.countP (fun o =>
    match o with
    | SockOp.connectEx _ => true
    | SockOp.connect _ => true
    | _ => false)

/-- The timeout values installed by `settimeout` calls, in call order. -/
def timeoutsSet (ops : List SockOp) : List Int :=
  ops.filterMap (fun o => match o with | SockOp.settimeout t => some t | _ => none)

/-- The ports the dispatch loop of `main` iterates (minscanner.py line
51): Python `range(start, end + 1)`. -/
def dispatchedPorts (s e : Int) : List Int :=
  (List.range (e + 1 - s).toNat).map (fun k : Nat => s + (k : Int))

/-- Helper: the dispatch loop visits no port twice. -/
theorem dispatchedPorts_nodup (s e : Int) : (dispatchedPorts s e).Nodup := by
  unfold dispatchedPorts
  apply List.Nodup.map _ (List.nodup_range _)
  intro a b hab
  have hab' : s + (a : Int) = s + (b : Int) := hab
  have h : (a : Int) = (b : Int) := by omega
  exact_mod_cast h

/-- Helper: membership in the dispatched port list, for a nonempty
range. -/
theorem dispatchedPorts_mem (s e p : Int) (h : s ≤ e) :
    p ∈ dispatchedPorts s e ↔ s ≤ p ∧ p ≤ e := by
  unfold dispatchedPorts
  simp only [List.mem_map, List.mem_range]
  constructor
  · rintro ⟨k, hk, rfl⟩
    omega
  · rintro ⟨h1, h2⟩
    exact ⟨(p - s).toNat, by omega, by omega⟩

/-- Helper: the number of dispatched ports. -/
theorem dispatchedPorts_length (s e : Int) (h : s ≤ e) :
    ((dispatchedPorts s e).length : Int) = e - s + 1 := by
  unfold dispatchedPorts
  simp only [List.length_map, List.length_range]
  omega

/-- Per-port record of a run: the port probed and the only per-port
observable the code produces, the printed OPEN line (or nothing). -/
structure ProbeResult where
  port : Int
  output : Option String
deriving DecidableEq

/-- The aggregate of the per-port outcomes of one run: one `scan` call
is dispatched per port of `range(start, end + 1)` (minscanner.py lines
50-64), each with the per-connection timeout `T`. -/
def scanRun (s e T : Int) (netOf : Int → ProbeNet) : List ProbeResult :=
  (dispatchedPorts s e).map (fun p => ⟨p, scanOutput p T (netOf p)⟩)

/-- A network where every port's connection is refused (errno 111). -/
def closedNet : Int → ProbeNet :=
  fun _ => ⟨111, NetBanner.emptyRecv⟩

/-- A network where every port is open and sends the banner `ssh`. -/
def openNet : Int → ProbeNet :=
  fun _ => ⟨0, NetBanner.bytes "ssh"⟩

/-- A banner step that fails or reads nothing: the read timed out, the
banner connect failed, the bytes did not decode, or the read was empty. -/
def bannerFailed (net : NetBanner) : Bool :=
  match net with
  | NetBanner.bytes _ => false
  | _ => true

/-- Helper: `bannerString` on each network behaviour. -/
theorem bannerString_eq (net : NetBanner) :
    bannerString net =
      (match net with | NetBanner.bytes s => pyStrip s | _ => "") := by
  cases net <;> rfl

/-- C10: for every network behaviour (socket creation succeeding),
`banner_grab` is total and never raises: its call result is always
`Except.ok`; on a successful read the string is the received (up to the
1024 requested) bytes decoded and whitespace-stripped, and on any
connect, receive, or decode failure (or empty read) it is the empty
string; the read requests at most 1024 bytes. -/
theorem banner_grab_total_never_raises (net : NetBanner) :
    banner_grab net = Except.ok (bannerString net) ∧
    (∀ s, net = NetBanner.bytes s → bannerString net = pyStrip s) ∧
    (bannerFailed net = true → bannerString net = "") ∧
    (∀ port : Int, net ≠ NetBanner.connectErr → SockOp.recv 1024 ∈ bannerGrabOps port net) := by
  refine ⟨?_, ?_, ?_, ?_⟩
  · cases net <;> rfl
  · intro s hs; subst hs; rfl
  · cases net <;> simp [bannerFailed, bannerString_eq]
  · intro port hne; cases net <;> simp [bannerGrabOps] at hne ⊢

/-- Witness for C10 at the concrete banner `" ssh "`. -/
theorem banner_grab_total_never_raises_witness :
    banner_grab (NetBanner.bytes " ssh ") = Except.ok "ssh" := by
  have h := banner_grab_total_never_raises (NetBanner.bytes " ssh ")
  have h1 := h.1
  rw [h.2.1 " ssh " rfl] at h1
  have ht : pyStrip " ssh " = "ssh" := by decide
  rw [ht] at h1
  exact h1

/-- C8: for every probe whose `connect_ex` succeeds (return code 0), a
timeout, connect error, decode error, or empty read during the banner
step is not an error: `scan` still prints the OPEN line for the port,
with no banner text appended. -/
theorem open_reported_despite_banner_failure (port T : Int) (net : NetBanner)
    (hT : 0 ≤ T) (hfail : bannerFailed net = true) :
    scanOutput port T ⟨0, net⟩ = some (scanLine port "") ∧
    scanLine port "" = "[+] Port " ++ toString port ++ " OPEN  " := by
  have hb : bannerString net = "" := by
    cases net <;> simp [bannerFailed] at hfail <;> rfl
  constructor
  · have hT' : ¬ T < 0 := by omega
    cases net <;> simp [bannerFailed] at hfail <;>
      simp [scanOutput, scan, scanTry, banner_grab, bannerGrabTry, hT']
  · simp [scanLine]

/-- Witness for C8: an open port whose banner read times out is still
reported OPEN, with the bare OPEN line. -/
theorem open_reported_despite_banner_failure_witness :
    scanOutput 22 1 ⟨0, NetBanner.timeoutErr⟩ = some (scanLine 22 "") :=
  (open_reported_despite_banner_failure 22 1 NetBanner.timeoutErr
    (by decide) (by decide)).1

/-- C3 counterexample: with per-connection timeout `T = 2` the open-port
probe installs timeout `2` on its own socket but the banner read's
socket gets the hard-coded timeout `1`, not `T`. -/
theorem banner_timeout_fixed_cex :
    timeoutsSet (scanOps 80 2 ⟨0, NetBanner.bytes "ssh"⟩) = [2, 1] ∧
    (1 : Int) ≠ 2 := by decide

/-- C3 amended: for every nonnegative per-connection timeout `T` and
every banner behaviour, an open-port probe installs exactly two
timeouts: `T` on the `connect_ex` socket and the constant `1` (from
`s.settimeout(1)` in `banner_grab`) on the banner socket — the banner
read's timeout is always 1 second, independent of `T`. -/
theorem banner_timeout_constant_one (port T : Int) (net : NetBanner) (hT : 0 ≤ T) :
    timeoutsSet (scanOps port T ⟨0, net⟩) = [T, 1] := by
  have hT' : ¬ T < 0 := by omega
  cases net <;> simp [scanOps, bannerGrabOps, timeoutsSet, hT']

/-- Witness for the amended C3 at `T = 5`. -/
theorem banner_timeout_constant_one_witness :
    timeoutsSet (scanOps 80 5 ⟨0, NetBanner.emptyRecv⟩) = [5, 1] :=
  banner_timeout_constant_one 80 5 NetBanner.emptyRecv (by decide)

/-- C4 counterexample: a probe of an open port creates two sockets and
performs two TCP connection attempts (one by `scan`, a second one by
`banner_grab`), not exactly one. -/
theorem open_port_two_sockets_cex :
    creates (scanOps 22 1 ⟨0, NetBanner.bytes "ssh"⟩) = 2 ∧
    connectAttempts (scanOps 22 1 ⟨0, NetBanner.bytes "ssh"⟩) = 2 ∧
    (2 : Nat) ≠ 1 := by decide

/-- C4 amended: every opened socket is closed; a probe whose
`connect_ex` fails opens exactly one socket and makes exactly one
connection attempt, while a probe of an open port opens exactly two
sockets and makes exactly two connection attempts (the second pair from
`banner_grab`); and the dispatch loop probes each port at most once per
run (no retries). -/
theorem probe_socket_accounting (port T : Int) (net : ProbeNet) (hT : 0 ≤ T) :
    creates (scanOps port T net) = closes (scanOps port T net) ∧
    (net.connectRes = 0 →
      creates (scanOps port T net) = 2 ∧ connectAttempts (scanOps port T net) = 2) ∧
    (net.connectRes ≠ 0 →
      creates (scanOps port T net) = 1 ∧ connectAttempts (scanOps port T net) = 1) ∧
    (∀ s e : Int, (dispatchedPorts s e).count port ≤ 1) := by
  have hT' : ¬ T < 0 := by omega
  refine ⟨?_, ?_, ?_, ?_⟩
  · rcases net with ⟨res, bn⟩
    by_cases h : res = 0 <;>
      cases bn <;> simp [scanOps, bannerGrabOps, creates, closes, h, hT']
  · intro h
    rcases net with ⟨res, bn⟩
    simp only at h
    cases bn <;>
      simp [scanOps, bannerGrabOps, creates, connectAttempts, h, hT']
  · intro h
    rcases net with ⟨res, bn⟩
    simp only at h
    cases bn <;>
      simp [scanOps, bannerGrabOps, creates, connectAttempts, h, hT']
  · intro s e
    exact List.nodup_iff_count_le_one.mp (dispatchedPorts_nodup s e) port

/-- Witness for the amended C4: socket accounting for a refused probe. -/
theorem probe_socket_accounting_witness :
    creates (scanOps 80 1 ⟨111, NetBanner.emptyRecv⟩) = 1 ∧
    connectAttempts (scanOps 80 1 ⟨111, NetBanner.emptyRecv⟩) = 1 :=
  (probe_socket_accounting 80 1 ⟨111, NetBanner.emptyRecv⟩ (by decide)).2.2.1
    (by decide)

/-- Helper: the ports of a run are exactly the dispatched ports. -/
theorem scanRun_map_port (s e T : Int) (netOf : Int → ProbeNet) :
    (scanRun s e T netOf).map ProbeResult.port = dispatchedPorts s e := by
  unfold scanRun
  rw [List.map_map]
  exact List.map_id _

/-- C1: for a valid port range (1 ≤ start ≤ end ≤ 65535), any timeout
and any per-port network behaviour whatsoever (timeout, refusal and
success included), the completed run holds exactly `end - start + 1`
per-port outcomes, whose ports are pairwise distinct and are exactly the
integer interval from start to end. -/
theorem scanRun_ports_exact (s e T : Int) (netOf : Int → ProbeNet)
    (h1 : 1 ≤ s) (h2 : s ≤ e) (h3 : e ≤ 65535) :
    ((scanRun s e T netOf).length : Int) = e - s + 1 ∧
    ((scanRun s e T netOf).map ProbeResult.port).Nodup ∧
    ∀ p : Int, p ∈ (scanRun s e T netOf).map ProbeResult.port ↔ s ≤ p ∧ p ≤ e := by
  refine ⟨?_, ?_, ?_⟩
  · have hl : (scanRun s e T netOf).length = (dispatchedPorts s e).length := by
      have := congrArg List.length (scanRun_map_port s e T netOf)
      simpa using this
    rw [hl]
    exact dispatchedPorts_length s e h2
  · rw [scanRun_map_port]
    exact dispatchedPorts_nodup s e
  · intro p
    rw [scanRun_map_port]
    exact dispatchedPorts_mem s e p h2

/-- Witness for C1: a run over ports 1..3 against a refusing network
has exactly 3 outcomes. -/
theorem scanRun_ports_exact_witness :
    ((scanRun 1 3 1 closedNet).length : Int) = 3 - 1 + 1 :=
  (scanRun_ports_exact 1 3 1 closedNet (by decide) (by decide) (by decide)).1

/-- The error taxonomy the spec prescribes for a ProbeResult. -/
inductive ErrKind
  | refused
  | timedOut
  | unreachable
deriving DecidableEq

/-- Modelled from the spec: the `ProbeResult.error` field the claim
describes ("all per-probe outcomes are captured as data"), mapping the
`connect_ex` errno to the spec's error taxonomy (0 success, 110
ETIMEDOUT, 111 ECONNREFUSED, otherwise unreachable).  The source has no
such field; this definition exists only to be compared with what the
code records. -/
def specProbeError (net : ProbeNet) : Option ErrKind :=
  if net.connectRes = 0 then none
  else if net.connectRes = 110 then some ErrKind.timedOut
  else if net.connectRes = 111 then some ErrKind.refused
  else some ErrKind.unreachable

/-- C6 counterexample: a refused probe (errno 111) and a timed-out probe
(errno 110) of the same port leave bit-for-bit identical per-port
records (no output, nothing else), while the spec's error field
distinguishes them — the per-probe outcome is not captured as data
anywhere in the code. -/
theorem outcome_not_recorded_cex :
    (⟨80, scanOutput 80 1 ⟨111, NetBanner.emptyRecv⟩⟩ : ProbeResult) =
      ⟨80, scanOutput 80 1 ⟨110, NetBanner.emptyRecv⟩⟩ ∧
    specProbeError ⟨111, NetBanner.emptyRecv⟩ ≠
      specProbeError ⟨110, NetBanner.emptyRecv⟩ := by decide

/-- C6 amended: no exception ever escapes `scan` — the bare
`except: pass` turns every failure of the probe body into a normal
return, so a slow or failing remote host never crashes the coordinator —
but the failure is not captured as data: a probe whose `connect_ex`
fails produces no output and no record of the error kind. -/
theorem scan_never_raises (port T : Int) (net : ProbeNet) :
    scan port T net = Except.ok (scanOutput port T net) ∧
    (net.connectRes ≠ 0 → scanOutput port T net = none) := by
  constructor
  · unfold scanOutput scan scanTry
    by_cases hT : T < 0
    · simp [hT]
    · by_cases hc : net.connectRes = 0
      · cases h : banner_grab net.bannerNet <;> simp [hT, hc, h]
      · simp [hT, hc]
  · intro hc
    unfold scanOutput scan scanTry
    by_cases hT : T < 0 <;> simp [hT, hc]

/-- Witness for the amended C6: a timed-out probe returns normally with
no output. -/
theorem scan_never_raises_witness :
    scan 9 7 ⟨110, NetBanner.emptyRecv⟩ = Except.ok none := by
  have h := scan_never_raises 9 7 ⟨110, NetBanner.emptyRecv⟩
  have h2 := h.2 (by decide)
  rw [← h2]
  exact h.1

/-- The command-line arguments of `main` (minscanner.py lines 36-42):
target, `--start` (default 1), `--end` (default 1024), `--threads`
(default 100), `--timeout` (default 1), all parsed with `type=int` and
no further validation. -/
structure Args where
  target : String
  start : Int
  endPort : Int
  threads : Int
  timeout : Int
deriving DecidableEq

/-- The only exception `main` can hit before dispatch:
`socket.gethostbyname` failing on an unresolvable target (minscanner.py
line 44).  No other check precedes the dispatch loop. -/
inductive MainExn
  | resolveFailure
deriving DecidableEq

/-- Translation of `main` (minscanner.py lines 35-66), with the
resolver's behaviour an explicit input: if the target resolves, the
dispatch loop probes every port of `range(start, end + 1)` and the run
completes; otherwise `gethostbyname` raises and `main` aborts.  There is
no validation of `start`, `end`, `threads` or `timeout` anywhere. -/
def mainRun (resolves : Bool) (a : Args) (netOf : Int → ProbeNet) :
    Except MainExn (List ProbeResult) :=
  if resolves then
    Except.ok ((dispatchedPorts a.start a.endPort).map
      (fun p => ⟨p, scanOutput p a.timeout (netOf p)⟩))
  else Except.error MainExn.resolveFailure

/-- The process exit status of `main`: 0 on a normal return, nonzero
when an uncaught exception aborts the interpreter. -/
def mainExitCode (resolves : Bool) (a : Args) (netOf : Int → ProbeNet) : Nat :=
  match mainRun resolves a netOf with
  | Except.ok _ => 0
  | Except.error _ => 1

/-- C5 counterexample: with a resolvable target, `start=2 > end=1` exits
with status 0 (the claim demands nonzero) after an empty run, while
`start=0, threads=0, timeout=-1` is accepted and probes ports 0, 1, 2
(the claim demands zero network activity and a ConfigurationError). -/
theorem no_validation_cex :
    mainExitCode true ⟨"h", 2, 1, 100, 1⟩ closedNet = 0 ∧
    dispatchedPorts 2 1 = [] ∧
    mainExitCode true ⟨"h", 0, 2, 0, -1⟩ closedNet = 0 ∧
    dispatchedPorts 0 2 = [0, 1, 2] := by decide

/-- C5 amended: `main` performs no configuration validation at all: for
every argument vector (start=0, start>end, threads=0 and timeout≤0
included) a run with a resolvable target completes normally with exit
status 0 and probes exactly `range(start, end + 1)` — an inverted range
silently yields an empty run rather than an error, and a zero or
negative start/timeout/thread count is simply used as is. -/
theorem main_accepts_all_configs (a : Args) (netOf : Int → ProbeNet) :
    mainExitCode true a netOf = 0 ∧
    (∃ rs, mainRun true a netOf = Except.ok rs ∧
      rs.map ProbeResult.port = dispatchedPorts a.start a.endPort) ∧
    (a.endPort < a.start → mainRun true a netOf = Except.ok []) := by
  refine ⟨rfl, ⟨_, rfl, ?_⟩, ?_⟩
  · rw [List.map_map]
    exact List.map_id _
  · intro h
    have hlen : (a.endPort + 1 - a.start).toNat = 0 := by omega
    simp [mainRun, dispatchedPorts, hlen]

/-- Witness for the amended C5 at a concrete inverted range. -/
theorem main_accepts_all_configs_witness :
    mainExitCode true ⟨"h", 1, 3, 100, 1⟩ closedNet = 0 :=
  (main_accepts_all_configs ⟨"h", 1, 3, 100, 1⟩ closedNet).1

/-- Length of the Python `thread_list` after each mutation the dispatch
loop of `main` performs (minscanner.py lines 50-60): each port appends
one freshly started thread; when the length reaches `threads` the whole
batch is joined and the list is reset to empty. -/
def threadCounts (thr : Int) : List Int → Nat → List Nat
  | [], _ => []
  | _ :: ps, acc =>
    if thr ≤ (acc : Int) + 1 then (acc + 1) :: 0 :: threadCounts thr ps 0
    else (acc + 1) :: threadCounts thr ps (acc + 1)

/-- Helper: the batching invariant — starting below the ceiling, every
intermediate `thread_list` length stays at or below the ceiling. -/
theorem threadCounts_le (thr : Int) (hthr : 1 ≤ thr) :
    ∀ (ports : List Int) (acc : Nat), (acc : Int) < thr →
      ∀ n ∈ threadCounts thr ports acc, (n : Int) ≤ thr := by
  intro ports
  induction ports with
  | nil => intro acc _ n hn; simp [threadCounts] at hn
  | cons p ps ih =>
    intro acc hacc n hn
    by_cases hfull : thr ≤ (acc : Int) + 1
    · simp only [threadCounts, if_pos hfull, List.mem_cons] at hn
      rcases hn with rfl | rfl | hn
      · push_cast; omega
      · push_cast; omega
      · exact ih 0 (by push_cast; omega) n hn
    · simp only [threadCounts, if_neg hfull, List.mem_cons] at hn
      rcases hn with rfl | hn
      · push_cast; omega
      · exact ih (acc + 1) (by push_cast; omega) n hn

/-- C2: for every thread ceiling C ≥ 1 and every port list, at every
point of the dispatch loop the number of started-but-not-yet-joined
threads is at most C; a probe's sockets are open only while its thread
runs, so at no instant do more than C probes hold an open socket. -/
theorem thread_count_bounded (thr : Int) (ports : List Int) (hthr : 1 ≤ thr) :
    ∀ n ∈ threadCounts thr ports 0, (n : Int) ≤ thr :=
  threadCounts_le thr hthr ports 0 (by omega)

/-- Witness for C2: with ceiling 2 and three ports the recorded
`thread_list` lengths are [1, 2, 0, 1] and each is at most 2. -/
theorem thread_count_bounded_witness :
    threadCounts 2 [1, 2, 3] 0 = [1, 2, 0, 1] ∧ ((2 : Nat) : Int) ≤ 2 :=
  ⟨by decide, thread_count_bounded 2 [1, 2, 3] (by decide) 2 (by decide)⟩

/-- Events of the dispatch loop, in the order the coordinator observes
them: a thread for a port is started, a line is printed, a thread is
joined (i.e. has finished). -/
inductive Ev
  | start (p : Int)
  | out (p : Int) (line : String)
  | jn (p : Int)
deriving DecidableEq

/-- The events one probe thread contributes: its OPEN line, if any, is
printed while the thread runs, so it precedes the thread's join. -/
def probeEvents (t : Int) (netOf : Int → ProbeNet) (p : Int) : List Ev :=
  (match scanOutput p t (netOf p) with
   | some line => [Ev.out p line]
   | none => []) ++ [Ev.jn p]

/-- Event trace of the dispatch loop of `main` (minscanner.py lines
50-64): threads are started one port at a time; once `len(thread_list)`
reaches the ceiling the whole batch is joined in order and the list is
reset; leftover threads are joined after the loop.  A joined thread's
own events (its print, then its completion) are serialized before its
join returns. -/
def runTrace (t : Int) (netOf : Int → ProbeNet) (thr : Int) :
    List Int → List Int → List Ev
  | [], acc => acc.flatMap (probeEvents t netOf)
  | p :: ps, acc =>
    Ev.start p ::
      (if thr ≤ (acc.length : Int) + 1 then
        (acc ++ [p]).flatMap (probeEvents t netOf) ++ runTrace t netOf thr ps []
      else runTrace t netOf thr ps (acc ++ [p]))

/-- For each `start` event of a trace, the number of joins the
coordinator performed since the previous `start` (the completions it
waited for before admitting that port). -/
def gapsBeforeStarts : List Ev → Nat → List Nat
  | [], _ => []
  | Ev.start _ :: rest, acc => acc :: gapsBeforeStarts rest 0
  | Ev.jn _ :: rest, acc => gapsBeforeStarts rest (acc + 1)
  | Ev.out _ _ :: rest, acc => gapsBeforeStarts rest acc

/-- The lines printed for a given port, in trace order. -/
def outsFor (p : Int) (tr : List Ev) : List String :=
  tr.filterMap (fun e =>
    match e with
    | Ev.out q line => if q = p then some line else none
    | _ => none)

/-- C7 counterexample: with ceiling C = 2 and ports 1, 2, 3 against a
refusing network the trace is start 1, start 2, join 1, join 2, start 3,
join 3 — before port 3 is admitted the coordinator joins both threads of
the full batch (2 joins, not at most 1), so a queued port is not
admitted as soon as one in-flight probe completes. -/
theorem batch_join_barrier_cex :
    runTrace 1 closedNet 2 [1, 2, 3] [] =
      [Ev.start 1, Ev.start 2, Ev.jn 1, Ev.jn 2, Ev.start 3, Ev.jn 3] ∧
    gapsBeforeStarts (runTrace 1 closedNet 2 [1, 2, 3] []) 0 = [0, 0, 2] ∧
    ¬ (2 : Nat) ≤ 1 := by decide

/-- The output line as the spec's words describe it:
`Port <n> OPEN | <banner-or-empty>`. -/
def specLine (port : Int) (b : String) : String :=
  "Port " ++ toString port ++ " OPEN | " ++ b

/-- C9 counterexample: the line the code prints never matches the form
`Port <n> OPEN | <banner-or-empty>`: it is prefixed with `[+] `, has two
spaces after OPEN, and omits the pipe entirely when the banner is
empty. -/
theorem output_line_format_cex :
    scanLine 22 "" ≠ specLine 22 "" ∧
    scanLine 22 "ssh" ≠ specLine 22 "ssh" ∧
    scanLine 22 "" = "[+] Port 22 OPEN  " ∧
    specLine 22 "" = "Port 22 OPEN | " := by decide

/-- Helper: one probe's events contribute exactly one join to a gap
count and no start. -/
theorem gaps_probeEvents (t : Int) (netOf : Int → ProbeNet) (p : Int)
    (rest : List Ev) (k : Nat) :
    gapsBeforeStarts (probeEvents t netOf p ++ rest) k =
      gapsBeforeStarts rest (k + 1) := by
  unfold probeEvents
  cases h : scanOutput p t (netOf p) <;> simp [h, gapsBeforeStarts]

/-- Helper: joining a whole batch adds the batch size to the pending
gap count. -/
theorem gaps_bind (t : Int) (netOf : Int → ProbeNet) (l : List Int)
    (rest : List Ev) (k : Nat) :
    gapsBeforeStarts (l.flatMap (probeEvents t netOf) ++ rest) k =
      gapsBeforeStarts rest (k + l.length) := by
  induction l generalizing k with
  | nil => simp
  | cons p ps ih =>
    rw [List.flatMap_cons, List.append_assoc, gaps_probeEvents, ih]
    simp only [List.length_cons]
    congr 1
    omega

/-- Helper: every gap recorded by the dispatch loop is the pending
count, zero, or the full ceiling. -/
theorem gaps_runTrace_mem (t : Int) (netOf : Int → ProbeNet) (thr : Int)
    (hthr : 1 ≤ thr) :
    ∀ (ports acc : List Int) (k : Nat), ((acc.length : Int) < thr) →
      ∀ g ∈ gapsBeforeStarts (runTrace t netOf thr ports acc) k,
        g = k ∨ g = 0 ∨ (g : Int) = thr := by
  intro ports
  induction ports with
  | nil =>
    intro acc k _ g hg
    simp only [runTrace] at hg
    have hb : gapsBeforeStarts (acc.flatMap (probeEvents t netOf)) k = [] := by
      have h2 := gaps_bind t netOf acc [] k
      simpa using h2
    rw [hb] at hg
    cases hg
  | cons q ps ih =>
    intro acc k hacc g hg
    simp only [runTrace] at hg
    by_cases hfull : thr ≤ (acc.length : Int) + 1
    · rw [if_pos hfull] at hg
      simp only [gapsBeforeStarts] at hg
      rw [gaps_bind] at hg
      rcases List.mem_cons.mp hg with rfl | hg2
      · exact Or.inl rfl
      · have hlen : (acc ++ [q]).length = acc.length + 1 := by simp
        rw [hlen] at hg2
        have h0 : (((List.nil : List Int).length : Nat) : Int) < thr := by
          simp only [List.length_nil, Nat.cast_zero]
          omega
        rcases ih [] (0 + (acc.length + 1)) h0 g hg2 with h | h | h
        · right; right
          rw [h]
          push_cast
          omega
        · right; left; exact h
        · right; right; exact h
    · rw [if_neg hfull] at hg
      simp only [gapsBeforeStarts] at hg
      rcases List.mem_cons.mp hg with rfl | hg2
      · exact Or.inl rfl
      · have hlen1 : (acc ++ [q]).length = acc.length + 1 := by simp
        have hlen : (((acc ++ [q]).length : Nat) : Int) < thr := by
          rw [hlen1]
          push_cast
          omega
        rcases ih (acc ++ [q]) 0 hlen g hg2 with h | h | h
        · right; left; exact h
        · right; left; exact h
        · right; right; exact h

/-- C7 amended: the coordinator admits ports in join-barrier batches:
whenever it waits at all before starting the next port, it waits for the
whole batch — the number of joins between consecutive thread starts is
either 0 (batch not yet full) or exactly the ceiling C (a full batch was
joined); it is never the single completion the claim describes. -/
theorem batch_admission_gaps (t : Int) (netOf : Int → ProbeNet) (thr : Int)
    (ports : List Int) (hthr : 1 ≤ thr) :
    ∀ g ∈ gapsBeforeStarts (runTrace t netOf thr ports []) 0,
      g = 0 ∨ (g : Int) = thr := by
  intro g hg
  have h0 : (((List.nil : List Int).length : Nat) : Int) < thr := by
    simp only [List.length_nil, Nat.cast_zero]
    omega
  rcases gaps_runTrace_mem t netOf thr hthr ports [] 0 h0 g hg with h | h | h
  · exact Or.inl h
  · exact Or.inl h
  · exact Or.inr h

/-- Witness for the amended C7: the nonzero gap in the concrete trace
equals the full ceiling 2. -/
theorem batch_admission_gaps_witness :
    2 ∈ gapsBeforeStarts (runTrace 1 closedNet 2 [1, 2, 3] []) 0 ∧
    ((2 : Nat) = 0 ∨ ((2 : Nat) : Int) = 2) :=
  ⟨by decide, batch_admission_gaps 1 closedNet 2 [1, 2, 3] (by decide) 2 (by decide)⟩

/-- Helper: `outsFor` distributes over appended traces. -/
theorem outsFor_append (p : Int) (a b : List Ev) :
    outsFor p (a ++ b) = outsFor p a ++ outsFor p b := by
  simp [outsFor, List.filterMap_append]

/-- Helper: the lines one probe's events contribute for a port. -/
theorem outsFor_probeEvents (t : Int) (netOf : Int → ProbeNet) (p q : Int) :
    outsFor p (probeEvents t netOf q) =
      if q = p then (scanOutput q t (netOf q)).toList else [] := by
  unfold probeEvents outsFor
  cases h : scanOutput q t (netOf q) <;> by_cases hqp : q = p <;> simp [h, hqp]

/-- Helper: a joined batch not containing the port prints nothing for
it. -/
theorem outsFor_flatMap_not_mem (t : Int) (netOf : Int → ProbeNet) (p : Int)
    (l : List Int) (hp : p ∉ l) :
    outsFor p (l.flatMap (probeEvents t netOf)) = [] := by
  induction l with
  | nil => simp [outsFor]
  | cons a l ih =>
    rw [List.flatMap_cons, outsFor_append, outsFor_probeEvents]
    have ha : ¬ a = p := fun h => hp (h ▸ List.mem_cons_self a l)
    have hpl : p ∉ l := fun h => hp (List.mem_cons_of_mem a h)
    simp [ha, ih hpl]

/-- Helper: a joined batch containing the port once prints exactly that
probe's output for it. -/
theorem outsFor_flatMap_mem (t : Int) (netOf : Int → ProbeNet) (p : Int)
    (l : List Int) (hnd : l.Nodup) (hp : p ∈ l) :
    outsFor p (l.flatMap (probeEvents t netOf)) =
      (scanOutput p t (netOf p)).toList := by
  induction l with
  | nil => cases hp
  | cons a l ih =>
    rw [List.flatMap_cons, outsFor_append, outsFor_probeEvents]
    rcases List.mem_cons.mp hp with rfl | hpl
    · have hnl : p ∉ l := (List.nodup_cons.mp hnd).1
      simp [outsFor_flatMap_not_mem t netOf p l hnl]
    · have ha : ¬ a = p := by
        rintro rfl
        exact (List.nodup_cons.mp hnd).1 hpl
      simp [ha, ih (List.nodup_cons.mp hnd).2 hpl]

/-- Helper: over a whole run with pairwise distinct ports, the lines
printed for a port are exactly that port's probe output. -/
theorem outsFor_runTrace (t : Int) (netOf : Int → ProbeNet) (thr : Int)
    (p : Int) :
    ∀ (ports acc : List Int), (acc ++ ports).Nodup →
      outsFor p (runTrace t netOf thr ports acc) =
        if p ∈ acc ++ ports then (scanOutput p t (netOf p)).toList else [] := by
  intro ports
  induction ports with
  | nil =>
    intro acc hnd
    simp only [runTrace]
    by_cases hp : p ∈ acc
    · rw [outsFor_flatMap_mem t netOf p acc (by simpa using hnd) hp]
      simp [hp]
    · rw [outsFor_flatMap_not_mem t netOf p acc hp]
      simp [hp]
  | cons q ps ih =>
    intro acc hnd
    simp only [runTrace]
    have hshape : acc ++ q :: ps = (acc ++ [q]) ++ ps := by simp
    have hnd' : ((acc ++ [q]) ++ ps).Nodup := by rw [← hshape]; exact hnd
    by_cases hfull : thr ≤ (acc.length : Int) + 1
    · rw [if_pos hfull]
      have hstep : outsFor p
          (Ev.start q :: ((acc ++ [q]).flatMap (probeEvents t netOf) ++
            runTrace t netOf thr ps [])) =
          outsFor p ((acc ++ [q]).flatMap (probeEvents t netOf) ++
            runTrace t netOf thr ps []) := by
        simp [outsFor]
      rw [hstep, outsFor_append]
      have hndA : (acc ++ [q]).Nodup := (List.nodup_append.mp hnd').1
      have hndps : ps.Nodup := (List.nodup_append.mp hnd').2.1
      have hrec := ih [] (by simpa using hndps)
      by_cases hpA : p ∈ acc ++ [q]
      · have hpnotps : p ∉ ps := fun hps =>
          (List.nodup_append.mp hnd').2.2 hpA hps
        rw [outsFor_flatMap_mem t netOf p _ hndA hpA, hrec]
        have hpmem : p ∈ acc ++ q :: ps := by
          rw [hshape]
          exact List.mem_append_left _ hpA
        simp [hpnotps, hpmem]
      · rw [outsFor_flatMap_not_mem t netOf p _ hpA, hrec]
        have hiff : (p ∈ acc ++ q :: ps) ↔ p ∈ ps := by
          rw [hshape, List.mem_append]
          constructor
          · rintro (h | h)
            · exact absurd h hpA
            · exact h
          · exact Or.inr
        by_cases hps : p ∈ ps
        · simp [hps, hiff.mpr hps]
        · have hmem : p ∉ acc ++ q :: ps := fun h => hps (hiff.mp h)
          rw [if_neg hmem]
          simp [hps]
    · rw [if_neg hfull]
      have hstep : outsFor p
          (Ev.start q :: runTrace t netOf thr ps (acc ++ [q])) =
          outsFor p (runTrace t netOf thr ps (acc ++ [q])) := by
        simp [outsFor]
      rw [hstep, ih (acc ++ [q]) hnd']
      rw [hshape]

/-- Helper: a contiguous segment stays contiguous under a new head. -/
theorem seg_cons {α : Type} (x : α) {l y : List α} (h : l <:+: y) :
    l <:+: x :: y := by
  obtain ⟨s, u, hs⟩ := h
  exact ⟨x :: s, u, by rw [← hs]; simp⟩

/-- Helper: a contiguous segment survives prepending a list. -/
theorem seg_app_left {α : Type} (x : List α) {l y : List α} (h : l <:+: y) :
    l <:+: x ++ y := by
  obtain ⟨s, u, hs⟩ := h
  exact ⟨x ++ s, u, by rw [← hs]; simp⟩

/-- Helper: a contiguous segment survives appending a list. -/
theorem seg_app_right {α : Type} (z : List α) {l y : List α} (h : l <:+: y) :
    l <:+: y ++ z := by
  obtain ⟨s, u, hs⟩ := h
  exact ⟨s, u ++ z, by rw [← hs]; simp⟩

/-- Helper: the events of any member of a joined batch form a
contiguous segment of the batch's events. -/
theorem seg_flatMap_of_mem (t : Int) (netOf : Int → ProbeNet) {p : Int}
    (l : List Int) (hp : p ∈ l) :
    probeEvents t netOf p <:+: l.flatMap (probeEvents t netOf) := by
  induction l with
  | nil => cases hp
  | cons a l ih =>
    rw [List.flatMap_cons]
    rcases List.mem_cons.mp hp with rfl | hpl
    · exact ⟨[], l.flatMap (probeEvents t netOf), by simp⟩
    · exact seg_app_left _ (ih hpl)

/-- Helper: every dispatched port's probe events form a contiguous
segment of the run trace. -/
theorem probeEvents_seg (t : Int) (netOf : Int → ProbeNet) (thr : Int)
    (p : Int) :
    ∀ (ports acc : List Int), p ∈ acc ∨ p ∈ ports →
      probeEvents t netOf p <:+: runTrace t netOf thr ports acc := by
  intro ports
  induction ports with
  | nil =>
    intro acc hp
    simp only [runTrace]
    rcases hp with hp | hp
    · exact seg_flatMap_of_mem t netOf acc hp
    · cases hp
  | cons q ps ih =>
    intro acc hp
    simp only [runTrace]
    by_cases hfull : thr ≤ (acc.length : Int) + 1
    · rw [if_pos hfull]
      apply seg_cons
      rcases hp with hp | hp
      · exact seg_app_right _
          (seg_flatMap_of_mem t netOf _ (List.mem_append_left _ hp))
      · rcases List.mem_cons.mp hp with rfl | hps
        · exact seg_app_right _ (seg_flatMap_of_mem t netOf _ (by simp))
        · exact seg_app_left _ (ih [] (Or.inr hps))
    · rw [if_neg hfull]
      apply seg_cons
      rcases hp with hp | hp
      · exact ih (acc ++ [q]) (Or.inl (List.mem_append_left _ hp))
      · rcases List.mem_cons.mp hp with rfl | hps
        · exact ih (acc ++ [p]) (Or.inl (by simp))
        · exact ih (acc ++ [q]) (Or.inr hps)

/-- C9 amended: for each discovered open port, exactly one line — the
code's `[+] Port <n> OPEN  | <banner>` line, with no pipe when the
banner is empty — is written to standard output, and it is written while
the probe's thread is still running (the print immediately precedes that
thread's join in the trace), not batched at the end of the run. -/
theorem open_port_single_immediate_line (t : Int) (netOf : Int → ProbeNet)
    (thr : Int) (ports : List Int) (p : Int) (line : String)
    (hnd : ports.Nodup) (hp : p ∈ ports)
    (hout : scanOutput p t (netOf p) = some line) :
    outsFor p (runTrace t netOf thr ports []) = [line] ∧
    [Ev.out p line, Ev.jn p] <:+: runTrace t netOf thr ports [] := by
  constructor
  · rw [outsFor_runTrace t netOf thr p ports [] (by simpa using hnd)]
    simp [hp, hout]
  · have h := probeEvents_seg t netOf thr p ports [] (Or.inr hp)
    unfold probeEvents at h
    rw [hout] at h
    simpa using h

/-- Witness for the amended C9: in a run over ports 22 and 23 with port
22 open and sending `ssh`, exactly one line is printed for port 22. -/
theorem open_port_single_immediate_line_witness :
    outsFor 22 (runTrace 1 openNet 2 [22, 23] []) =
      ["[+] Port 22 OPEN  " ++ "| " ++ "ssh"] :=
  (open_port_single_immediate_line 1 openNet 2 [22, 23] 22
    ("[+] Port 22 OPEN  " ++ "| " ++ "ssh")
    (by decide) (by decide) (by decide)).1
